import Mathlib

/-!
Verification of the pose-matching / game-engine core of the
`just_dance_skeleton` repository, shallowly embedded in Lean.

Python floats are modelled by `ℝ`. A Python exception escaping a core
function is modelled by `Except PyErr` for pure functions and by an
`Option PyErr` component for the stateful engine operations (Python
mutations performed before an exception is raised persist, so the engine
operations return the mutated state together with the escaped exception,
if any).

One dynamic-typing fact of the source matters and is modelled explicitly:
`config/settings.py` defines `NORMALIZATION_KEYPOINTS` as a list of two
strings, while `Pose.get_keypoint` (models.py) evaluates
`0 <= index < len(self.keypoints)`; comparing an `int` with a `str`
raises `TypeError` in Python 3.  Keypoint references are therefore
embedded as a sum `KRef` of integer indices and string names, and
`get_keypoint` raises on the string variant.
-/

namespace JustDance

/-- A Python exception class escaping the core (only `TypeError` occurs). -/
inductive PyErr where
  | typeError
deriving DecidableEq

/-- models.py `Keypoint`: a single joint in 2D space. -/
structure Keypoint where
  x : ℝ
  y : ℝ
  confidence : ℝ
  name : Option String
deriving Inhabited

/-- models.py `Keypoint.distance_to`: Euclidean distance. -/
noncomputable def Keypoint.distance_to (k1 k2 : Keypoint) : ℝ :=
  Real.sqrt ((k1.x - k2.x) ^ 2 + (k1.y - k2.y) ^ 2)

/-- models.py `Pose`: a complete pose with all keypoints. -/
structure Pose where
  keypoints : List Keypoint
  confidence : ℝ
  person_id : Option Int
  timestamp : Option ℝ

/-- A keypoint reference as it may arrive at `Pose.get_keypoint` at run
time: annotated as `int` in the source, but the configured constant
`NORMALIZATION_KEYPOINTS` actually holds strings. -/
inductive KRef where
  | idx : Int → KRef
  | name : String → KRef

/-- models.py `Pose.get_keypoint`: `keypoints[index]` when
`0 <= index < len(keypoints)`, `None` otherwise.  Evaluating
`0 <= index` against a string raises `TypeError`. -/
def Pose.get_keypoint (p : Pose) (r : KRef) : Except PyErr (Option Keypoint) :=
  match r with
  | .idx i => .ok (if i < 0 then none else p.keypoints.get? i.toNat)
  | .name _ => .error .typeError

/-- settings.py `NORMALIZATION_KEYPOINTS`: a list of two *strings*. -/
def NORMALIZATION_KEYPOINTS : List KRef :=
  [.name ("LEFT_SHOULDER"), .name ("RIGHT_SHOULDER")]

/-- settings.py `POSE_MATCH_THRESHOLD`. -/
noncomputable def POSE_MATCH_THRESHOLD : ℝ := 0.8

/-- settings.py `MAX_POSE_DISTANCE`. -/
noncomputable def MAX_POSE_DISTANCE : ℝ := 100

/-- settings.py `SCORE_DECAY_RATE`. -/
noncomputable def SCORE_DECAY_RATE : ℝ := 0.95

/-- settings.py `PERFECT_MATCH_BONUS`. -/
noncomputable def PERFECT_MATCH_BONUS : ℝ := 10

/-- settings.py `GOOD_MATCH_BONUS`. -/
noncomputable def GOOD_MATCH_BONUS : ℝ := 5

/-- settings.py `IMPORTANT_KEYPOINTS`: shoulders, elbows, wrists, hips,
knees, ankles (12 MediaPipe indices). -/
def IMPORTANT_KEYPOINTS : List Int :=
  [11, 12, 13, 14, 15, 16, 23, 24, 25, 26, 27, 28]

/-- The keypoints `normalize_scale` treats as visible
(`kp.confidence > 0.5`). -/
noncomputable def visibleKeypoints (p : Pose) : List Keypoint :=
  p.keypoints.filter (fun kp => 0.5 < kp.confidence)

/-- `np.mean` of the visible x coordinates, as sum/length.  (For an empty
visible list NumPy yields NaN; here the 0/0 = 0 convention of `ℝ` is
used — no claim depends on that corner.) -/
noncomputable def centerX (p : Pose) : ℝ :=
  ((visibleKeypoints p).map Keypoint.x).sum / ((visibleKeypoints p).length : ℝ)

/-- `np.mean` of the visible y coordinates, as sum/length. -/
noncomputable def centerY (p : Pose) : ℝ :=
  ((visibleKeypoints p).map Keypoint.y).sum / ((visibleKeypoints p).length : ℝ)

/-- The per-keypoint remapping of `normalize_scale`:
`new = (old - center) * scale_factor + center`, confidence and name
copied unchanged. -/
noncomputable def normTransform (cx cy s : ℝ) (kp : Keypoint) : Keypoint :=
  ⟨(kp.x - cx) * s + cx, (kp.y - cy) * s + cy, kp.confidence, kp.name⟩

/-- models.py `Pose.normalize_scale`: rescale around the visible-joint
centroid so that the reference-pair distance becomes 100 units; returns
the pose unchanged in every degenerate case. -/
noncomputable def Pose.normalize_scale (p : Pose) (reference_keypoints : List KRef) :
    Except PyErr Pose :=
  match reference_keypoints with
  | r1 :: r2 :: _ =>
    match p.get_keypoint r1 with
    | .error err => .error err
    | .ok o1 =>
      match p.get_keypoint r2 with
      | .error err => .error err
      | .ok o2 =>
        match o1, o2 with
        | some kp1, some kp2 =>
          if kp1.confidence < 0.5 ∨ kp2.confidence < 0.5 then .ok p
          else
            let ref_distance := kp1.distance_to kp2
            if ref_distance = 0 then .ok p
            else
              let scale_factor := 100 / ref_distance
              let cx := centerX p
              let cy := centerY p
              .ok ⟨p.keypoints.map (normTransform cx cy scale_factor),
                   p.confidence, p.person_id, p.timestamp⟩
        | _, _ => .ok p
  | _ => .ok p

/-- models.py `PoseMatch`.  The source stores `float('inf')` in
`distance` when no valid comparison exists; that value is modelled by
`none`. -/
structure PoseMatch where
  pose_name : String
  similarity : ℝ
  distance : Option ℝ
  matched_keypoints : ℕ
  total_keypoints : ℕ
  is_good_match : Bool
  is_perfect_match : Bool

/-- models.py `PoseMatch.accuracy`: matched/total, 0 when total is 0. -/
noncomputable def PoseMatch.accuracy (m : PoseMatch) : ℝ :=
  if m.total_keypoints = 0 then 0
  else (m.matched_keypoints : ℝ) / (m.total_keypoints : ℝ)

/-- models.py `DancePose`: a named reference pose. -/
structure DancePose where
  name : String
  keypoints : List Keypoint
  difficulty : String
  tags : List String
  description : String

/-- models.py `DancePose.to_pose`. -/
def DancePose.to_pose (d : DancePose) : Pose :=
  ⟨d.keypoints, 1.0, none, none⟩

/-- Accumulator of the comparison loop in
`DancePoseMatcher._calculate_pose_similarity`. -/
structure SimAcc where
  total_distance : ℝ
  valid_comparisons : ℕ
  matched_keypoints : ℕ

/-- One iteration of the loop over `IMPORTANT_KEYPOINTS` in
`_calculate_pose_similarity`: joints present with confidence above 0.5
in both poses accumulate distance, count as a valid comparison, and
count as matched when closer than `MAX_POSE_DISTANCE * 0.3`. -/
noncomputable def simStep (pose1 pose2 : Pose) (acc : SimAcc) (kp_idx : Int) : SimAcc :=
  match pose1.get_keypoint (.idx kp_idx), pose2.get_keypoint (.idx kp_idx) with
  | .ok (some kp1), .ok (some kp2) =>
    if kp1.confidence > 0.5 ∧ kp2.confidence > 0.5 then
      let distance := kp1.distance_to kp2
      ⟨acc.total_distance + distance,
       acc.valid_comparisons + 1,
       acc.matched_keypoints + (if distance < MAX_POSE_DISTANCE * 0.3 then 1 else 0)⟩
    else acc
  | _, _ => acc

/-- matcher.py `DancePoseMatcher._calculate_pose_similarity`:
`(similarity, distance, matched_keypoints)`; `(0, inf, 0)` when no valid
comparison exists, otherwise similarity is `exp(-avg / MAX_POSE_DISTANCE)`.
With `normalize = true` it first normalizes `pose2` with the configured
(string-valued) reference keypoints, which raises `TypeError`. -/
noncomputable def calculate_pose_similarity (pose1 pose2 : Pose) (normalize : Bool) :
    Except PyErr (ℝ × Option ℝ × ℕ) :=
  match (if normalize then pose2.normalize_scale NORMALIZATION_KEYPOINTS else .ok pose2) with
  | .error err => .error err
  | .ok pose2n =>
    let acc := IMPORTANT_KEYPOINTS.foldl (simStep pose1 pose2n) ⟨0, 0, 0⟩
    if acc.valid_comparisons = 0 then .ok (0, none, 0)
    else
      let avg_distance := acc.total_distance / (acc.valid_comparisons : ℝ)
      .ok (Real.exp (-avg_distance / MAX_POSE_DISTANCE), some avg_distance,
           acc.matched_keypoints)

/-- The `PoseMatch` record built inside the loop of
`DancePoseMatcher.match_pose`. -/
noncomputable def buildMatch (pose_name : String) (similarity : ℝ) (distance : Option ℝ)
    (matched_kps : ℕ) : PoseMatch :=
  { pose_name := pose_name
    similarity := similarity
    distance := distance
    matched_keypoints := matched_kps
    total_keypoints := IMPORTANT_KEYPOINTS.length
    is_good_match := if similarity ≥ POSE_MATCH_THRESHOLD * 0.7 then true else false
    is_perfect_match := if similarity ≥ POSE_MATCH_THRESHOLD then true else false }

/-- The `for pose_name, dance_pose in self.dance_poses.items()` loop of
`match_pose`, carrying `best_match` and `best_similarity`.  The library
dictionary is embedded as an association list in insertion order. -/
noncomputable def matchLoop (dp : Pose) (normalize : Bool) :
    List (String × DancePose) → Option PoseMatch → ℝ →
    Except PyErr (Option PoseMatch × ℝ)
  | [], best, bestSim => .ok (best, bestSim)
  | entry :: rest, best, bestSim =>
    match calculate_pose_similarity dp entry.2.to_pose normalize with
    | .error err => .error err
    | .ok (similarity, distance, matched_kps) =>
      if similarity > bestSim then
        matchLoop dp normalize rest
          (some (buildMatch entry.1 similarity distance matched_kps)) similarity
      else
        matchLoop dp normalize rest best bestSim

/-- matcher.py `DancePoseMatcher.match_pose` (the source's default is
`normalize = true`): `None` if no pose was detected or the library is
empty; otherwise normalize the detected pose, scan the library for the
best similarity, and return the best match only above the 0.3 floor. -/
noncomputable def match_pose (detected_pose : Option Pose)
    (dance_poses : List (String × DancePose)) (normalize : Bool) :
    Except PyErr (Option PoseMatch) :=
  match detected_pose, dance_poses with
  | none, _ => .ok none
  | some _, [] => .ok none
  | some dp0, lib =>
    match (if normalize then dp0.normalize_scale NORMALIZATION_KEYPOINTS else .ok dp0) with
    | .error err => .error err
    | .ok dp =>
      match matchLoop dp normalize lib none 0 with
      | .error err => .error err
      | .ok (best, _) =>
        match best with
        | some m => .ok (if m.similarity > 0.3 then some m else none)
        | none => .ok none

/-- models.py `GameState`. -/
structure GameState where
  current_pose : Option Pose
  target_pose : Option DancePose
  current_match : Option PoseMatch
  score : ℝ
  combo_count : ℕ
  is_playing : Bool
  frame_count : ℕ
  start_time : Option ℝ

/-- engine.py `GameEngine`: the engine together with the matcher's
library (`pose_matcher.dance_poses`, an insertion-ordered dictionary
embedded as an association list). -/
structure GameEngine where
  dance_poses : List (String × DancePose)
  game_state : GameState
  target_pose_sequence : List String
  current_pose_index : ℕ
  pose_hold_time : ℝ
  pose_start_time : Option ℝ
  last_update_time : ℝ

/-- Dictionary lookup `self.pose_matcher.dance_poses[pose_name]`
(with `pose_name in dance_poses` as `isSome`). -/
def libLookup (lib : List (String × DancePose)) (pose_name : String) :
    Option DancePose :=
  (lib.find? (fun entry => entry.1 = pose_name)).map Prod.snd

/-- engine.py `GameEngine._set_current_target_pose`: set the target from
the sequence, skipping (and stepping past) entries whose name is not in
the library; the recursion stops when a valid entry is found or the
index reaches the end of the sequence. -/
def set_current_target_pose (e : GameEngine) : GameEngine :=
  if h : e.current_pose_index < e.target_pose_sequence.length ∧
      e.target_pose_sequence ≠ [] then
    let pose_name := e.target_pose_sequence.get ⟨e.current_pose_index, h.1⟩
    match libLookup e.dance_poses pose_name with
    | some d => { e with game_state := { e.game_state with target_pose := some d } }
    | none =>
      let e2 := { e with current_pose_index := e.current_pose_index + 1 }
      if e2.current_pose_index < e2.target_pose_sequence.length then
        set_current_target_pose e2
      else e2
  else e
termination_by e.target_pose_sequence.length - e.current_pose_index

/-- engine.py `GameEngine.stop_game`. -/
def stop_game (e : GameEngine) : GameEngine :=
  { e with game_state := { e.game_state with is_playing := false } }

/-- engine.py `GameEngine._generate_new_sequence`.  With an empty library
the session is stopped.  Otherwise the source computes
`sequence_length = min(5 + score // 100, 10)`; since `score` is a float,
`score // 100` and hence `5 + score // 100` are floats, and whenever
`5 + ⌊score/100⌋ ≤ 10` Python's `min` returns that float, so
`random.choices(..., k=<float>)` raises `TypeError` (via
`itertools.repeat(None, k)`) before any state is changed.  Only for
`score ≥ 600` is the int 10 chosen and the draw succeeds; the random
draw itself is supplied as the oracle `freshDraw`. -/
noncomputable def generate_new_sequence (e : GameEngine) (freshDraw : List String) :
    GameEngine × Option PyErr :=
  match e.dance_poses with
  | [] => (stop_game e, none)
  | _ :: _ =>
    if 5 + ⌊e.game_state.score / 100⌋ ≤ 10 then (e, some .typeError)
    else
      (set_current_target_pose
        { e with target_pose_sequence := freshDraw, current_pose_index := 0 }, none)

/-- engine.py `GameEngine._complete_pose`: award
`base_score * (1 + combo_count * 0.1) * similarity`, increment the
combo, advance the index and clear the hold timer; then regenerate the
sequence when it is exhausted, else set the next target. -/
noncomputable def complete_pose (e : GameEngine) (pose_match : PoseMatch)
    (freshDraw : List String) : GameEngine × Option PyErr :=
  let base_score := if pose_match.is_perfect_match then PERFECT_MATCH_BONUS
                    else GOOD_MATCH_BONUS
  let combo_multiplier : ℝ := 1.0 + (e.game_state.combo_count : ℝ) * 0.1
  let score_earned := base_score * combo_multiplier * pose_match.similarity
  let e1 := { e with
    game_state := { e.game_state with
      score := e.game_state.score + score_earned
      combo_count := e.game_state.combo_count + 1 }
    current_pose_index := e.current_pose_index + 1
    pose_start_time := none }
  if e1.current_pose_index ≥ e1.target_pose_sequence.length then
    generate_new_sequence e1 freshDraw
  else
    (set_current_target_pose e1, none)

/-- engine.py `GameEngine._handle_pose_match`: on a good match start or
continue the hold timer and complete the pose once the hold duration
reaches `pose_hold_time`; on a poor match clear the timer and reset the
combo. -/
noncomputable def handle_pose_match (e : GameEngine) (pose_match : PoseMatch)
    (current_time : ℝ) (freshDraw : List String) : GameEngine × Option PyErr :=
  if pose_match.is_good_match then
    let start := e.pose_start_time.getD current_time
    let e1 := { e with pose_start_time := some start }
    if current_time - start ≥ e.pose_hold_time then
      complete_pose e1 pose_match freshDraw
    else (e1, none)
  else
    ({ e with
        pose_start_time := none,
        game_state := { e.game_state with combo_count := 0 } }, none)

/-- engine.py `GameEngine.update`: no-op unless playing; apply score
decay over `dt`, count the frame, record the detected pose; when a pose
was detected and a target is set, run the matcher (with its default
`normalize = True`) and dispatch on whether the result names the current
target. -/
noncomputable def update (e : GameEngine) (detected_pose : Option Pose)
    (current_time : ℝ) (freshDraw : List String) : GameEngine × Option PyErr :=
  if e.game_state.is_playing = true then
    let dt := current_time - e.last_update_time
    let e1 := { e with
      last_update_time := current_time
      game_state := { e.game_state with
        frame_count := e.game_state.frame_count + 1
        current_pose := detected_pose
        score := e.game_state.score * SCORE_DECAY_RATE ^ dt } }
    match detected_pose, e1.game_state.target_pose with
    | some dp, some target =>
      match match_pose (some dp) e1.dance_poses true with
      | .error err => (e1, some err)
      | .ok pose_match =>
        match pose_match with
        | some pm =>
          if pm.pose_name = target.name then
            handle_pose_match
              { e1 with game_state := { e1.game_state with current_match := some pm } }
              pm current_time freshDraw
          else
            let e2 := { e1 with game_state := { e1.game_state with current_match := none } }
            match e2.pose_start_time with
            | some _ =>
              ({ e2 with
                  pose_start_time := none,
                  game_state := { e2.game_state with combo_count := 0 } }, none)
            | none => (e2, none)
        | none =>
          let e2 := { e1 with game_state := { e1.game_state with current_match := none } }
          match e2.pose_start_time with
          | some _ =>
            ({ e2 with
                pose_start_time := none,
                game_state := { e2.game_state with combo_count := 0 } }, none)
          | none => (e2, none)
    | _, _ =>
      ({ e1 with game_state := { e1.game_state with current_match := none } }, none)
  else (e, none)

/-- A keypoint at (0.5, 0.5) with confidence 1.0 (as in the sample
library poses). -/
noncomputable def kpU : Keypoint := ⟨0.5, 0.5, 1, none⟩

/-- A full 33-joint pose, every joint at confidence 1.0. -/
noncomputable def pose33 : Pose := ⟨List.replicate 33 kpU, 1, none, none⟩

/-- The same 33 coordinates as `pose33`, stored as a library pose. -/
noncomputable def dance33 : DancePose :=
  ⟨"Clone", List.replicate 33 kpU, "medium", [], ""⟩

/-- A 29-joint pose (covering all `IMPORTANT_KEYPOINTS` indices), every
joint at confidence 1.0 — used to exercise the matcher on its
non-normalizing path. -/
noncomputable def poseU : Pose := ⟨List.replicate 29 kpU, 1, none, none⟩

/-- `poseU` stored as a library pose. -/
noncomputable def danceU : DancePose :=
  ⟨"Uniform", List.replicate 29 kpU, "medium", [], ""⟩

/-- A playing engine state with score 0, frame 0, start time 0 and the
given library, sequence, index, hold timer, combo and target. -/
noncomputable def mkEngine (lib : List (String × DancePose)) (seq : List String)
    (idx : ℕ) (startT : Option ℝ) (combo : ℕ) (target : Option DancePose) :
    GameEngine :=
  { dance_poses := lib
    game_state := ⟨none, target, none, 0, combo, true, 0, some 0⟩
    target_pose_sequence := seq
    current_pose_index := idx
    pose_hold_time := 2
    pose_start_time := startT
    last_update_time := 0 }

/-- A playing engine used to instantiate claim C7. -/
noncomputable def engine7 : GameEngine := mkEngine [] [] 0 none 0 none

/-- An engine in mid-hold (timer running since time 1, combo 2) used to
refute the literal reading of claim C3. -/
noncomputable def engine3 : GameEngine :=
  mkEngine [(("Uniform"), danceU)] [("Uniform")] 0 (some 1) 2 (some danceU)

/-- A library pose used in the claim C9 witness. -/
noncomputable def danceB : DancePose := ⟨"Bpose", List.replicate 29 kpU, "medium", [], ""⟩

/-- An engine whose sequence starts with a name missing from the
library, so that setting the target skips one entry. -/
noncomputable def engine9 : GameEngine :=
  mkEngine [(("Bpose"), danceB)] [("Missing"), ("Bpose")] 0 none 0 none

/-- A playing engine with a target set, an empty library, a running hold
timer and combo 2 — used for the claim C3 witness. -/
noncomputable def engine3b : GameEngine :=
  mkEngine [] [("Uniform")] 0 (some 1) 2 (some danceU)

/-- A not-good `PoseMatch` record, used for the claim C3 witness. -/
noncomputable def matchBad : PoseMatch :=
  ⟨"Uniform", 0.4, some 50, 3, 12, false, false⟩

/-- The `PoseMatch` that `match_pose` produces for `poseU` against the
one-entry library `[("Uniform", danceU)]` on the non-normalizing path. -/
noncomputable def matchU : PoseMatch := ⟨"Uniform", 1, some 0, 12, 12, true, true⟩

/-- The value of `_calculate_pose_similarity` on its pure (non-raising,
non-normalizing) path, as a plain function. -/
noncomputable def simTriple (pose1 pose2 : Pose) : ℝ × Option ℝ × ℕ :=
  let acc := IMPORTANT_KEYPOINTS.foldl (simStep pose1 pose2) ⟨0, 0, 0⟩
  if acc.valid_comparisons = 0 then (0, none, 0)
  else
    let avg_distance := acc.total_distance / (acc.valid_comparisons : ℝ)
    (Real.exp (-avg_distance / MAX_POSE_DISTANCE), some avg_distance,
     acc.matched_keypoints)

/-- The similarity a library entry scores against the detected pose on
the non-normalizing path. -/
noncomputable def entrySim (dp : Pose) (entry : String × DancePose) : ℝ :=
  (simTriple dp entry.2.to_pose).1

/-- The `PoseMatch` the loop builds for a given library entry on the
non-normalizing path. -/
noncomputable def buildEntry (dp : Pose) (b : String × DancePose) : PoseMatch :=
  buildMatch b.1 (simTriple dp b.2.to_pose).1 (simTriple dp b.2.to_pose).2.1
    (simTriple dp b.2.to_pose).2.2

/-- One step of the claim-side scan: replace the current candidate only
on a strictly higher value, so ties keep the earlier candidate. -/
noncomputable def bestStep (f : (String × DancePose) → ℝ) :
    Option (String × DancePose) → (String × DancePose) →
    Option (String × DancePose) :=
  fun o entry =>
    match o with
    | none => some entry
    | some b => if f entry > f b then some entry else some b

/-- Modelled from the claim: the first-seen candidate attaining the
strictly highest similarity across the library. -/
noncomputable def claimedBest (f : (String × DancePose) → ℝ)
    (lib : List (String × DancePose)) : Option (String × DancePose) :=
  lib.foldl (bestStep f) none

/-- Modelled from the claim: the result `match` is claimed to deliver —
the first-seen strictly-highest-similarity candidate, returned only when
its similarity exceeds the absolute floor 0.3. -/
noncomputable def claimedMatch (dp : Pose) (lib : List (String × DancePose)) :
    Option PoseMatch :=
  match claimedBest (entrySim dp) lib with
  | none => none
  | some b => if entrySim dp b > 0.3 then some (buildEntry dp b) else none

/-- Invariant of every `PoseMatch` the matcher's loop can build:
perfect implies good, the total is the fixed important-joint count, and
the matched count cannot exceed it. -/
def goodInv (m : PoseMatch) : Prop :=
  (m.is_perfect_match = true → m.is_good_match = true) ∧
  m.total_keypoints = 12 ∧ m.matched_keypoints ≤ 12

/-- Library pose named A, used for the claim C6 scenarios. -/
noncomputable def danceA : DancePose := ⟨"A", List.replicate 29 kpU, "medium", [], ""⟩

/-- Library pose named C, used for the claim C6 scenarios. -/
noncomputable def danceC : DancePose := ⟨"C", List.replicate 29 kpU, "medium", [], ""⟩

/-- A good (but not perfect) similarity-1 match for pose A. -/
noncomputable def matchGood : PoseMatch := ⟨"A", 1, some 0, 12, 12, true, false⟩

/-- A playing engine holding pose A since time 0 whose sequence contains
a middle entry (B) that is not in the library. -/
noncomputable def engine6 : GameEngine :=
  mkEngine [(("A"), danceA), (("C"), danceC)] [("A"), ("B"), ("C")] 0 (some 0) 0
    (some danceA)

/-- A playing engine holding pose A since time 0 with a clean next
sequence entry (C, present in the library) and combo 1. -/
noncomputable def engine6b : GameEngine :=
  mkEngine [(("A"), danceA), (("C"), danceC)] [("A"), ("C")] 0 (some 0) 1
    (some danceA)

/-- `normalize_scale` applied with the configured reference-keypoint
constant always raises: it reaches `get_keypoint` with the string
reference, where `0 <= index` raises `TypeError`. -/
theorem normalize_configured_raises (p : Pose) :
    p.normalize_scale NORMALIZATION_KEYPOINTS = .error .typeError := rfl

/-- `match_pose` with a detected pose, a non-empty library and the
default `normalize = True` raises through the normalization step. -/
theorem match_pose_normalize_raises (p : Pose) (entry : String × DancePose)
    (rest : List (String × DancePose)) :
    match_pose (some p) (entry :: rest) true = .error .typeError := rfl

/-- Claim C1: the claim states that no core operation ever raises and in
particular that `normalize` called with the configured reference joint
pair never errors.  The code contradicts this: `NORMALIZATION_KEYPOINTS`
holds strings while `get_keypoint` compares `0 <= index`, so the call
raises `TypeError` on every pose meeting the data-model constraints. -/
theorem claim_C1_normalize_with_configured_pair_raises :
    pose33.normalize_scale NORMALIZATION_KEYPOINTS = .error .typeError :=
  normalize_configured_raises pose33

/-- Claim C2: matching against an empty library is indeed absent, but
matching a 33-joint all-confidence-1.0 pose against a library holding an
identical reference pose raises `TypeError` (through normalization with
the string-valued reference constant) instead of yielding the claimed
similarity-1.0 perfect match. -/
theorem claim_C2_exact_match_raises_instead_of_perfect :
    match_pose (some pose33) [] true = .ok none ∧
    match_pose (some pose33) [(("Clone"), dance33)] true = .error .typeError :=
  ⟨rfl, rfl⟩


/-- Claim C7: the decay applied by `update` while playing is
`score * SCORE_DECAY_RATE ^ dt`; it is the identity at `dt = 0` and
non-increasing for `dt ≥ 0` on non-negative scores (shown on an update
with no detected pose, where decay is the only score change). -/
theorem claim_C7_score_decay (e : GameEngine) (t : ℝ) (fresh : List String)
    (hplay : e.game_state.is_playing = true) :
    (update e none t fresh).1.game_state.score
        = e.game_state.score * SCORE_DECAY_RATE ^ (t - e.last_update_time) ∧
    (t = e.last_update_time →
      (update e none t fresh).1.game_state.score = e.game_state.score) ∧
    (e.last_update_time ≤ t → 0 ≤ e.game_state.score →
      (update e none t fresh).1.game_state.score ≤ e.game_state.score) := by
  have h1 : (update e none t fresh).1.game_state.score
      = e.game_state.score * SCORE_DECAY_RATE ^ (t - e.last_update_time) := by
    simp [update, hplay]
  refine ⟨h1, fun ht => ?_, fun hle hs => ?_⟩
  · rw [h1, ht, sub_self, Real.rpow_zero, mul_one]
  · rw [h1]
    have hz : (0 : ℝ) ≤ t - e.last_update_time := by linarith
    have hrate : SCORE_DECAY_RATE ^ (t - e.last_update_time) ≤ 1 :=
      Real.rpow_le_one (by norm_num [SCORE_DECAY_RATE])
        (by norm_num [SCORE_DECAY_RATE]) hz
    calc e.game_state.score * SCORE_DECAY_RATE ^ (t - e.last_update_time)
        ≤ e.game_state.score * 1 := mul_le_mul_of_nonneg_left hrate hs
      _ = e.game_state.score := mul_one _


/-- Witness for claim C7 at a concrete playing engine and `t = 0`. -/
theorem claim_C7_witness :
    (update engine7 none 0 []).1.game_state.score
        = engine7.game_state.score * SCORE_DECAY_RATE ^ ((0 : ℝ) - engine7.last_update_time) ∧
    ((0 : ℝ) = engine7.last_update_time →
      (update engine7 none 0 []).1.game_state.score = engine7.game_state.score) ∧
    (engine7.last_update_time ≤ (0 : ℝ) → 0 ≤ engine7.game_state.score →
      (update engine7 none 0 []).1.game_state.score ≤ engine7.game_state.score) :=
  claim_C7_score_decay engine7 0 [] rfl


/-- Counterexample to claim C3 as stated: an update while playing whose
detected pose is absent (hence "no relevant match") leaves the
in-progress hold timer running and the combo count at 2 instead of
cancelling the timer and resetting the combo to 0. -/
theorem claim_C3_counterexample :
    engine3.game_state.is_playing = true ∧
    engine3.pose_start_time = some 1 ∧
    engine3.game_state.combo_count = 2 ∧
    (update engine3 none 5 []).1.pose_start_time = some 1 ∧
    (update engine3 none 5 []).1.game_state.combo_count = 2 :=
  ⟨rfl, rfl, rfl, rfl, rfl⟩

/-- Claim C9: the skip recursion of `_set_current_target_pose`
terminates (the Lean embedding is total, by the decreasing measure
`length - index`), never moves the index backwards, never moves it past
the sequence end, and on exit either the index denotes a sequence entry
present in the library and the target was set to it, or the sequence is
exhausted and the operation set no target (the target field is
unchanged). -/
theorem claim_C9_target_skip_postcondition (e : GameEngine) :
    e.current_pose_index ≤ (set_current_target_pose e).current_pose_index ∧
    (set_current_target_pose e).current_pose_index
        ≤ max e.current_pose_index e.target_pose_sequence.length ∧
    (set_current_target_pose e).target_pose_sequence = e.target_pose_sequence ∧
    ((set_current_target_pose e).current_pose_index < e.target_pose_sequence.length →
      (set_current_target_pose e).game_state.target_pose
          = (e.target_pose_sequence.get? (set_current_target_pose e).current_pose_index).bind
              (libLookup e.dance_poses) ∧
      ((e.target_pose_sequence.get? (set_current_target_pose e).current_pose_index).bind
              (libLookup e.dance_poses)).isSome = true) ∧
    (e.target_pose_sequence.length ≤ (set_current_target_pose e).current_pose_index →
      (set_current_target_pose e).game_state.target_pose = e.game_state.target_pose) := by
  generalize hm : e.target_pose_sequence.length - e.current_pose_index = n
  induction n generalizing e with
  | zero =>
    have hc : ¬(e.current_pose_index < e.target_pose_sequence.length ∧
        e.target_pose_sequence ≠ []) := by
      rintro ⟨h1, _⟩
      omega
    rw [set_current_target_pose, dif_neg hc]
    exact ⟨le_refl _, le_max_left _ _, rfl, fun h => absurd h (by omega), fun _ => rfl⟩
  | succ k ih =>
    have hlt : e.current_pose_index < e.target_pose_sequence.length := by omega
    have hne : e.target_pose_sequence ≠ [] := by
      intro h
      rw [h] at hlt
      simp at hlt
    rw [set_current_target_pose, dif_pos ⟨hlt, hne⟩]
    dsimp only
    split
    · rename_i d hl
      refine ⟨le_refl _, le_max_left _ _, rfl, fun _ => ⟨?_, ?_⟩, fun h =>
        absurd (show e.target_pose_sequence.length ≤ e.current_pose_index from h)
          (by omega)⟩
      · rw [List.get?_eq_get hlt, Option.some_bind, hl]
      · rw [List.get?_eq_get hlt, Option.some_bind, hl]
        rfl
    · rename_i hl
      by_cases h2 : e.current_pose_index + 1 < e.target_pose_sequence.length
      · rw [if_pos h2]
        have hm2 : ({ e with current_pose_index := e.current_pose_index + 1 } :
            GameEngine).target_pose_sequence.length
            - ({ e with current_pose_index := e.current_pose_index + 1 } :
            GameEngine).current_pose_index = k :=
          show e.target_pose_sequence.length - (e.current_pose_index + 1) = k
            from by omega
        obtain ⟨i1, i2, i3, i4, i5⟩ :=
          ih { e with current_pose_index := e.current_pose_index + 1 } hm2
        have i1a : e.current_pose_index + 1 ≤
            (set_current_target_pose
              { e with current_pose_index := e.current_pose_index + 1 }).current_pose_index := i1
        have i2a : (set_current_target_pose
              { e with current_pose_index := e.current_pose_index + 1 }).current_pose_index
            ≤ max (e.current_pose_index + 1) e.target_pose_sequence.length := i2
        exact ⟨by omega, by omega, i3, i4, i5⟩
      · rw [if_neg h2]
        exact ⟨Nat.le_succ _,
          show e.current_pose_index + 1 ≤ max e.current_pose_index
            e.target_pose_sequence.length from by omega,
          rfl,
          fun h => absurd (show e.current_pose_index + 1 <
            e.target_pose_sequence.length from h) h2,
          fun _ => rfl⟩



/-- Witness for claim C9: on a concrete sequence whose head is not in
the library, the skip lands on index 1 and the target it reports is the
library entry at that index. -/
theorem claim_C9_witness :
    engine9.current_pose_index ≤ (set_current_target_pose engine9).current_pose_index ∧
    (set_current_target_pose engine9).game_state.target_pose
        = (engine9.target_pose_sequence.get?
            (set_current_target_pose engine9).current_pose_index).bind
            (libLookup engine9.dance_poses) := by
  obtain ⟨h1, h2, h3, h4, h5⟩ := claim_C9_target_skip_postcondition engine9
  refine ⟨h1, (h4 ?_).1⟩
  have hidx : (set_current_target_pose engine9).current_pose_index = 1 := by
    simp +decide [set_current_target_pose, engine9, mkEngine, libLookup, List.find?]
  rw [hidx]
  simp [engine9, mkEngine]

/-- Claim C3 (amended): while playing, the hold timer and combo are
cancelled/reset only on updates where a pose was detected and a target
is set: when the matcher then yields no relevant match an in-progress
hold timer is cancelled with the combo reset to 0 (both left untouched
when no hold was in progress), and a relevant match that is not good
resets both unconditionally.  When the detected pose is absent (or no
target is set) the current match is cleared but the hold timer and
combo persist — there is no reset on absent frames. -/
theorem claim_C3_amended_reset_behavior (e : GameEngine) (p : Pose) (m : PoseMatch)
    (t : ℝ) (fresh : List String)
    (hplay : e.game_state.is_playing = true) :
    ((update e none t fresh).1.game_state.current_match = none ∧
     (update e none t fresh).1.pose_start_time = e.pose_start_time ∧
     (update e none t fresh).1.game_state.combo_count = e.game_state.combo_count ∧
     (update e none t fresh).2 = none) ∧
    (e.game_state.target_pose = none →
      (update e (some p) t fresh).1.game_state.current_match = none ∧
      (update e (some p) t fresh).1.pose_start_time = e.pose_start_time ∧
      (update e (some p) t fresh).1.game_state.combo_count = e.game_state.combo_count ∧
      (update e (some p) t fresh).2 = none) ∧
    (e.game_state.target_pose ≠ none → e.dance_poses = [] →
      (update e (some p) t fresh).1.game_state.current_match = none ∧
      (update e (some p) t fresh).1.pose_start_time = none ∧
      (e.pose_start_time ≠ none →
        (update e (some p) t fresh).1.game_state.combo_count = 0) ∧
      (e.pose_start_time = none →
        (update e (some p) t fresh).1.pose_start_time = e.pose_start_time ∧
        (update e (some p) t fresh).1.game_state.combo_count
            = e.game_state.combo_count) ∧
      (update e (some p) t fresh).2 = none) ∧
    (m.is_good_match = false →
      (handle_pose_match e m t fresh).1.pose_start_time = none ∧
      (handle_pose_match e m t fresh).1.game_state.combo_count = 0 ∧
      (handle_pose_match e m t fresh).2 = none) := by
  refine ⟨?_, ?_, ?_, ?_⟩
  · simp [update, hplay]
  · intro htgt
    simp [update, hplay, htgt]
  · intro htgt hlib
    obtain ⟨tg, htg⟩ := Option.ne_none_iff_exists.mp htgt
    cases hps : e.pose_start_time with
    | none => simp [update, hplay, ← htg, hlib, match_pose, hps]
    | some s0 => simp [update, hplay, ← htg, hlib, match_pose, hps]
  · intro hgood
    simp [handle_pose_match, hgood]



/-- Witness for claim C3 (amended) at concrete inputs: with a detected
pose and target but no library match the hold timer is cancelled and the
combo reset; a not-good relevant match resets the combo; an absent
detected pose leaves the combo untouched. -/
theorem claim_C3_witness :
    (update engine3b (some poseU) 5 []).1.pose_start_time = none ∧
    (update engine3b (some poseU) 5 []).1.game_state.combo_count = 0 ∧
    (handle_pose_match engine3b matchBad 5 []).1.game_state.combo_count = 0 ∧
    (update engine3b none 5 []).1.game_state.combo_count
        = engine3b.game_state.combo_count := by
  obtain ⟨h1, h2, h3, h4⟩ :=
    claim_C3_amended_reset_behavior engine3b poseU matchBad 5 [] rfl
  obtain ⟨c1, c2, c3, c4, c5⟩ := h3 (by simp [engine3b, mkEngine]) rfl
  exact ⟨c2, c3 (by simp [engine3b, mkEngine]), (h4 rfl).2.1, h1.2.2.1⟩

/-- One comparison step adds at most one valid comparison, never
removes one, and adds at most as many matched joints as valid ones. -/
theorem simStep_bounds (p1 p2 : Pose) (acc : SimAcc) (i : Int) :
    (simStep p1 p2 acc i).valid_comparisons ≤ acc.valid_comparisons + 1 ∧
    acc.valid_comparisons ≤ (simStep p1 p2 acc i).valid_comparisons ∧
    (simStep p1 p2 acc i).matched_keypoints + acc.valid_comparisons
        ≤ acc.matched_keypoints + (simStep p1 p2 acc i).valid_comparisons := by
  unfold simStep
  split
  · split
    · dsimp only
      split <;> omega
    · omega
  · omega

/-- Over the whole comparison loop, the valid count grows by at most the
number of scanned indices and the matched count grows by at most the
valid count. -/
theorem simFold_bounds (p1 p2 : Pose) (idxs : List Int) (acc : SimAcc) :
    (idxs.foldl (simStep p1 p2) acc).valid_comparisons
        ≤ acc.valid_comparisons + idxs.length ∧
    (idxs.foldl (simStep p1 p2) acc).matched_keypoints + acc.valid_comparisons
        ≤ acc.matched_keypoints + (idxs.foldl (simStep p1 p2) acc).valid_comparisons := by
  induction idxs generalizing acc with
  | nil => simp
  | cons i rest ih =>
    simp only [List.foldl_cons, List.length_cons]
    obtain ⟨s1, s2, s3⟩ := simStep_bounds p1 p2 acc i
    obtain ⟨f1, f2⟩ := ih (simStep p1 p2 acc i)
    omega

/-- The matched-keypoint component of `_calculate_pose_similarity` never
exceeds the 12 scanned important joints. -/
theorem calc_matched_le (p1 p2 : Pose) (norm : Bool) (s : ℝ) (d : Option ℝ) (mk : ℕ)
    (h : calculate_pose_similarity p1 p2 norm = .ok (s, d, mk)) : mk ≤ 12 := by
  unfold calculate_pose_similarity at h
  split at h
  · exact absurd h (by simp)
  · rename_i q hq
    dsimp only at h
    split at h
    · simp only [Except.ok.injEq, Prod.mk.injEq] at h
      omega
    · simp only [Except.ok.injEq, Prod.mk.injEq] at h
      obtain ⟨f1, f2⟩ := simFold_bounds p1 q IMPORTANT_KEYPOINTS ⟨0, 0, 0⟩
      have f1a : (IMPORTANT_KEYPOINTS.foldl (simStep p1 q) ⟨0, 0, 0⟩).valid_comparisons
          ≤ 0 + IMPORTANT_KEYPOINTS.length := f1
      have f2a : (IMPORTANT_KEYPOINTS.foldl (simStep p1 q) ⟨0, 0, 0⟩).matched_keypoints + 0
          ≤ 0 + (IMPORTANT_KEYPOINTS.foldl (simStep p1 q) ⟨0, 0, 0⟩).valid_comparisons := f2
      have h12 : IMPORTANT_KEYPOINTS.length = 12 := by decide
      rw [h12] at f1a
      omega

/-- Every match the scanning loop can deliver satisfies `goodInv`,
provided the accumulator does. -/
theorem matchLoop_inv (dp : Pose) (norm : Bool) (lib : List (String × DancePose))
    (best : Option PoseMatch) (bestSim : ℝ) (res : Option PoseMatch × ℝ)
    (hacc : ∀ m, best = some m → goodInv m)
    (hres : matchLoop dp norm lib best bestSim = .ok res) :
    ∀ m, res.1 = some m → goodInv m := by
  induction lib generalizing best bestSim with
  | nil =>
    simp only [matchLoop, Except.ok.injEq] at hres
    subst hres
    exact hacc
  | cons entry rest ih =>
    rw [matchLoop] at hres
    split at hres
    · exact absurd hres (by simp)
    · rename_i s d mk hcalc
      split at hres
      · refine ih _ _ ?_ hres
        intro m hm
        simp only [Option.some.injEq] at hm
        subst hm
        have hmk : mk ≤ 12 := calc_matched_le dp entry.2.to_pose norm s d mk hcalc
        refine ⟨?_, rfl, hmk⟩
        intro hperf
        simp only [buildMatch] at hperf ⊢
        split at hperf
        · rename_i hs
          rw [if_pos]
          have : (0.8 : ℝ) * 0.7 ≤ 0.8 := by norm_num
          simp only [POSE_MATCH_THRESHOLD] at hs ⊢
          linarith
        · exact absurd hperf (by simp)
      · exact ih _ _ hacc hres

/-- Inversion for `match_pose`: a produced match was built by the loop
and therefore satisfies `goodInv`. -/
theorem match_pose_produced (p : Option Pose) (lib : List (String × DancePose))
    (norm : Bool) (m : PoseMatch)
    (h : match_pose p lib norm = .ok (some m)) : goodInv m := by
  match p, lib with
  | none, lib => exact absurd h (by simp [match_pose])
  | some dp0, [] => exact absurd h (by simp [match_pose])
  | some dp0, entry :: rest =>
    simp only [match_pose] at h
    split at h
    · exact absurd h (by simp)
    · rename_i dp hdp
      split at h
      · exact absurd h (by simp)
      · rename_i best bestSim hloop
        have hinv : ∀ mm, best = some mm → goodInv mm := by
          intro mm hmm
          exact matchLoop_inv dp norm (entry :: rest) none 0 (best, bestSim)
            (by intro m2 hm2; exact absurd hm2 (by simp)) hloop mm hmm
        split at h
        · rename_i m0
          split at h
          · simp only [Except.ok.injEq, Option.some.injEq] at h
            subst h
            exact hinv m0 rfl
          · exact absurd h (by simp)
        · exact absurd h (by simp)

/-- Claim C8: for every `PoseMatch` produced by the matcher,
`is_perfect_match` implies `is_good_match` (the perfect threshold 0.8 is
at least the good threshold 0.7 × 0.8). -/
theorem claim_C8_perfect_implies_good (p : Option Pose)
    (lib : List (String × DancePose)) (norm : Bool) (m : PoseMatch)
    (h : match_pose p lib norm = .ok (some m))
    (hperf : m.is_perfect_match = true) : m.is_good_match = true :=
  (match_pose_produced p lib norm m h).1 hperf

/-- Claim C10: every `PoseMatch` returned by the matcher has
`total_keypoints = 12`, `matched_keypoints ≤ 12`, and accuracy
`matched_keypoints / 12`. -/
theorem claim_C10_total_keypoints (p : Option Pose)
    (lib : List (String × DancePose)) (norm : Bool) (m : PoseMatch)
    (h : match_pose p lib norm = .ok (some m)) :
    m.total_keypoints = 12 ∧ m.matched_keypoints ≤ 12 ∧
    m.accuracy = (m.matched_keypoints : ℝ) / 12 := by
  obtain ⟨-, h12, hle⟩ := match_pose_produced p lib norm m h
  refine ⟨h12, hle, ?_⟩
  rw [PoseMatch.accuracy, if_neg (by omega), h12]
  norm_num

/-- `get?` on a long-enough replicate list yields the repeated element. -/
theorem get?_replicate_of_lt {α : Type} (n m : ℕ) (a : α) (h : m < n) :
    (List.replicate n a).get? m = some a := by
  rw [List.get?_eq_getElem?, List.getElem?_eq_getElem (by simpa using h)]
  simp

/-- On the uniform 29-joint poses, every in-range comparison step counts
one valid and one matched joint and adds distance 0. -/
theorem simStep_uniform (acc : SimAcc) (i : Int) (h0 : 0 ≤ i) (h29 : i.toNat < 29) :
    simStep poseU danceU.to_pose acc i
      = ⟨acc.total_distance, acc.valid_comparisons + 1, acc.matched_keypoints + 1⟩ := by
  have hd : kpU.distance_to kpU = 0 := by
    simp [Keypoint.distance_to]
  have hg1 : poseU.get_keypoint (.idx i) = .ok (some kpU) := by
    simp only [Pose.get_keypoint, poseU]
    rw [if_neg (by omega)]
    rw [get?_replicate_of_lt 29 i.toNat kpU h29]
  have hg2 : danceU.to_pose.get_keypoint (.idx i) = .ok (some kpU) := by
    simp only [Pose.get_keypoint, DancePose.to_pose, danceU]
    rw [if_neg (by omega)]
    rw [get?_replicate_of_lt 29 i.toNat kpU h29]
  unfold simStep
  rw [hg1, hg2]
  dsimp only
  rw [if_pos (by constructor <;> norm_num [kpU])]
  rw [hd]
  rw [if_pos (by norm_num [MAX_POSE_DISTANCE])]
  simp

/-- Folding the comparison over in-range indices of the uniform poses
counts every index as valid and matched, with total distance 0. -/
theorem simFold_uniform (idxs : List Int) (acc : SimAcc)
    (hall : ∀ i ∈ idxs, 0 ≤ i ∧ i.toNat < 29) :
    idxs.foldl (simStep poseU danceU.to_pose) acc
      = ⟨acc.total_distance, acc.valid_comparisons + idxs.length,
         acc.matched_keypoints + idxs.length⟩ := by
  induction idxs generalizing acc with
  | nil => rfl
  | cons i rest ih =>
    obtain ⟨h0, h29⟩ := hall i (by simp)
    rw [List.foldl_cons, simStep_uniform acc i h0 h29,
      ih _ (fun j hj => hall j (by simp [hj]))]
    simp only [List.length_cons, SimAcc.mk.injEq, true_and]
    omega

/-- The similarity of the uniform pose against its own library copy on
the non-normalizing path: similarity 1, distance 0, 12 matched. -/
theorem calc_uniform :
    calculate_pose_similarity poseU danceU.to_pose false = .ok (1, some 0, 12) := by
  unfold calculate_pose_similarity
  rw [if_neg (by simp)]
  dsimp only
  rw [simFold_uniform IMPORTANT_KEYPOINTS ⟨0, 0, 0⟩ (by decide)]
  rw [show IMPORTANT_KEYPOINTS.length = 12 from rfl]
  rw [if_neg (by norm_num)]
  norm_num [MAX_POSE_DISTANCE, Real.exp_zero]

/-- The full matcher run on the uniform pose and its one-entry library,
with normalization disabled: a similarity-1 perfect match. -/
theorem match_pose_uniform :
    match_pose (some poseU) [(("Uniform"), danceU)] false = .ok (some matchU) := by
  have hbuild : buildMatch ("Uniform") 1 (some 0) 12 = matchU := by
    unfold buildMatch matchU
    rw [if_pos (by norm_num [POSE_MATCH_THRESHOLD]),
      if_pos (by norm_num [POSE_MATCH_THRESHOLD])]
    rfl
  simp only [match_pose]
  rw [if_neg (by simp)]
  simp only [matchLoop, calc_uniform]
  rw [if_pos (by norm_num)]
  simp only [matchLoop, hbuild]
  rw [if_pos (by norm_num [matchU])]

/-- Witness for claim C8: the concrete produced match `matchU` is a
perfect match, and the theorem concludes it is a good match. -/
theorem claim_C8_witness : matchU.is_good_match = true :=
  claim_C8_perfect_implies_good (some poseU) [(("Uniform"), danceU)] false matchU
    match_pose_uniform rfl

/-- Witness for claim C10 at the concrete produced match `matchU`. -/
theorem claim_C10_witness :
    matchU.total_keypoints = 12 ∧ matchU.matched_keypoints ≤ 12 ∧
    matchU.accuracy = (matchU.matched_keypoints : ℝ) / 12 :=
  claim_C10_total_keypoints (some poseU) [(("Uniform"), danceU)] false matchU
    match_pose_uniform

/-- On the non-normalizing path the similarity computation never raises
and returns exactly `simTriple`. -/
theorem calc_false_eq (p q : Pose) :
    calculate_pose_similarity p q false = .ok (simTriple p q) := by
  unfold calculate_pose_similarity simTriple
  rw [if_neg (by simp)]
  dsimp only
  by_cases hc : (IMPORTANT_KEYPOINTS.foldl (simStep p q) ⟨0, 0, 0⟩).valid_comparisons = 0
  · rw [if_pos hc, if_pos hc]
  · rw [if_neg hc, if_neg hc]

/-- Simulation of the source loop from an occupied accumulator: the
final candidate is the claim-side scan result, its similarity never
drops below the seed, and the loop returns its built match. -/
theorem matchLoop_from_some (dp : Pose) (lib : List (String × DancePose)) :
    ∀ b : String × DancePose,
      ∃ c : String × DancePose,
        lib.foldl (bestStep (entrySim dp)) (some b) = some c ∧
        entrySim dp b ≤ entrySim dp c ∧
        matchLoop dp false lib (some (buildEntry dp b)) (entrySim dp b)
          = .ok (some (buildEntry dp c), entrySim dp c) := by
  induction lib with
  | nil => exact fun b => ⟨b, rfl, le_refl _, rfl⟩
  | cons entry rest ih =>
    intro b
    have hst : calculate_pose_similarity dp entry.2.to_pose false
        = .ok (entrySim dp entry, (simTriple dp entry.2.to_pose).2.1,
               (simTriple dp entry.2.to_pose).2.2) :=
      calc_false_eq dp entry.2.to_pose
    by_cases hgt : entrySim dp entry > entrySim dp b
    · obtain ⟨c, hc1, hc2, hc3⟩ := ih entry
      refine ⟨c, ?_, le_trans (le_of_lt hgt) hc2, ?_⟩
      · rw [List.foldl_cons]
        show rest.foldl (bestStep (entrySim dp))
            (bestStep (entrySim dp) (some b) entry) = some c
        rw [show bestStep (entrySim dp) (some b) entry = some entry from
          by unfold bestStep; dsimp only; rw [if_pos hgt]]
        exact hc1
      · rw [matchLoop, hst]
        dsimp only
        rw [if_pos hgt]
        exact hc3
    · obtain ⟨c, hc1, hc2, hc3⟩ := ih b
      refine ⟨c, ?_, hc2, ?_⟩
      · rw [List.foldl_cons]
        rw [show bestStep (entrySim dp) (some b) entry = some b from
          by unfold bestStep; dsimp only; rw [if_neg hgt]]
        exact hc1
      · rw [matchLoop, hst]
        dsimp only
        rw [if_neg hgt]
        exact hc3

/-- Simulation of the source loop from the empty accumulator against the
claim-side scan seeded with a candidate of non-positive similarity: the
scan still ends on some candidate, and either that candidate is strictly
positive and the loop delivers it, or it is non-positive and the loop
delivers nothing. -/
theorem matchLoop_from_none (dp : Pose) (lib : List (String × DancePose)) :
    ∀ b : String × DancePose, entrySim dp b ≤ 0 →
      ∃ c : String × DancePose,
        lib.foldl (bestStep (entrySim dp)) (some b) = some c ∧
        ((0 < entrySim dp c ∧
          matchLoop dp false lib none 0
            = .ok (some (buildEntry dp c), entrySim dp c)) ∨
         (entrySim dp c ≤ 0 ∧ matchLoop dp false lib none 0 = .ok (none, 0))) := by
  induction lib with
  | nil => exact fun b hb => ⟨b, rfl, Or.inr ⟨hb, rfl⟩⟩
  | cons entry rest ih =>
    intro b hb
    have hst : calculate_pose_similarity dp entry.2.to_pose false
        = .ok (entrySim dp entry, (simTriple dp entry.2.to_pose).2.1,
               (simTriple dp entry.2.to_pose).2.2) :=
      calc_false_eq dp entry.2.to_pose
    by_cases hpos : entrySim dp entry > 0
    · obtain ⟨c, hc1, hc2, hc3⟩ := matchLoop_from_some dp rest entry
      refine ⟨c, ?_, Or.inl ⟨lt_of_lt_of_le hpos hc2, ?_⟩⟩
      · rw [List.foldl_cons]
        rw [show bestStep (entrySim dp) (some b) entry = some entry from
          by unfold bestStep; dsimp only; rw [if_pos (lt_of_le_of_lt hb hpos)]]
        exact hc1
      · rw [matchLoop, hst]
        dsimp only
        rw [if_pos hpos]
        exact hc3
    · have hneg : entrySim dp entry ≤ 0 := le_of_not_lt hpos
      by_cases hgtb : entrySim dp entry > entrySim dp b
      · obtain ⟨c, hc1, hc23⟩ := ih entry hneg
        refine ⟨c, ?_, ?_⟩
        · rw [List.foldl_cons]
          rw [show bestStep (entrySim dp) (some b) entry = some entry from
            by unfold bestStep; dsimp only; rw [if_pos hgtb]]
          exact hc1
        · rw [matchLoop, hst]
          dsimp only
          rw [if_neg hpos]
          exact hc23
      · obtain ⟨c, hc1, hc23⟩ := ih b hb
        refine ⟨c, ?_, ?_⟩
        · rw [List.foldl_cons]
          rw [show bestStep (entrySim dp) (some b) entry = some b from
            by unfold bestStep; dsimp only; rw [if_neg hgtb]]
          exact hc1
        · rw [matchLoop, hst]
          dsimp only
          rw [if_neg hpos]
          exact hc23

/-- Reduction of `match_pose` on the non-normalizing path through a
known loop result. -/
theorem match_pose_of_loop (dp : Pose) (e0 : String × DancePose)
    (rest0 : List (String × DancePose)) (best : Option PoseMatch) (s : ℝ)
    (h : matchLoop dp false (e0 :: rest0) none 0 = .ok (best, s)) :
    match_pose (some dp) (e0 :: rest0) false
      = match best with
        | some m => .ok (if m.similarity > 0.3 then some m else none)
        | none => .ok none := by
  simp only [match_pose]
  rw [if_neg (by simp)]
  dsimp only
  split
  · rename_i err herr
    rw [h] at herr
    exact absurd herr (by simp)
  · rename_i b2 s2 hok
    rw [h] at hok
    simp only [Except.ok.injEq, Prod.mk.injEq] at hok
    rw [← hok.1]
    cases best <;> rfl

/-- The matcher on the non-normalizing path computes exactly the
claim-described selection: first-seen strict-highest similarity with the
0.3 floor. -/
theorem match_false_eq_claimed (dp : Pose) (lib : List (String × DancePose)) :
    match_pose (some dp) lib false = .ok (claimedMatch dp lib) := by
  match lib with
  | [] => rfl
  | e0 :: rest0 =>
    have hst : calculate_pose_similarity dp e0.2.to_pose false
        = .ok (entrySim dp e0, (simTriple dp e0.2.to_pose).2.1,
               (simTriple dp e0.2.to_pose).2.2) :=
      calc_false_eq dp e0.2.to_pose
    by_cases hpos : entrySim dp e0 > 0
    · obtain ⟨c, hc1, hc2, hc3⟩ := matchLoop_from_some dp rest0 e0
      have hml : matchLoop dp false (e0 :: rest0) none 0
          = .ok (some (buildEntry dp c), entrySim dp c) := by
        rw [matchLoop, hst]
        dsimp only
        rw [if_pos hpos]
        exact hc3
      rw [match_pose_of_loop dp e0 rest0 _ _ hml]
      unfold claimedMatch claimedBest
      rw [List.foldl_cons,
        show bestStep (entrySim dp) none e0 = some e0 from rfl, hc1]
      dsimp only
      by_cases hfloor : entrySim dp c > 0.3
      · rw [if_pos (show (buildEntry dp c).similarity > 0.3 from hfloor),
          if_pos hfloor]
      · rw [if_neg (show ¬(buildEntry dp c).similarity > 0.3 from hfloor),
          if_neg hfloor]
    · have hneg : entrySim dp e0 ≤ 0 := le_of_not_lt hpos
      obtain ⟨c, hc1, hc23⟩ := matchLoop_from_none dp rest0 e0 hneg
      cases hc23 with
      | inl hc =>
        obtain ⟨hcpos, hloop⟩ := hc
        have hml : matchLoop dp false (e0 :: rest0) none 0
            = .ok (some (buildEntry dp c), entrySim dp c) := by
          rw [matchLoop, hst]
          dsimp only
          rw [if_neg hpos]
          exact hloop
        rw [match_pose_of_loop dp e0 rest0 _ _ hml]
        unfold claimedMatch claimedBest
        rw [List.foldl_cons,
          show bestStep (entrySim dp) none e0 = some e0 from rfl, hc1]
        dsimp only
        by_cases hfloor : entrySim dp c > 0.3
        · rw [if_pos (show (buildEntry dp c).similarity > 0.3 from hfloor),
            if_pos hfloor]
        · rw [if_neg (show ¬(buildEntry dp c).similarity > 0.3 from hfloor),
            if_neg hfloor]
      | inr hc =>
        obtain ⟨hcneg, hloop⟩ := hc
        have hml : matchLoop dp false (e0 :: rest0) none 0 = .ok (none, 0) := by
          rw [matchLoop, hst]
          dsimp only
          rw [if_neg hpos]
          exact hloop
        rw [match_pose_of_loop dp e0 rest0 _ _ hml]
        unfold claimedMatch claimedBest
        rw [List.foldl_cons,
          show bestStep (entrySim dp) none e0 = some e0 from rfl, hc1]
        dsimp only
        rw [if_neg (by linarith : ¬entrySim dp c > 0.3)]

/-- Claim C4 (amended): absent pose or empty library yield an absent
result; otherwise, with the source's default normalization enabled the
call raises `TypeError` (string-valued reference keypoints) instead of
returning anything; on the non-normalizing path the result is exactly
the claim-described selection — the first-seen candidate of strictly
highest similarity (ties keep the earlier candidate), returned only when
its similarity strictly exceeds the absolute floor 0.3. -/
theorem claim_C4_amended_selection (p : Pose) (lib : List (String × DancePose)) :
    match_pose none lib true = .ok none ∧
    match_pose (some p) [] true = .ok none ∧
    (lib ≠ [] → match_pose (some p) lib true = .error .typeError) ∧
    match_pose (some p) lib false = .ok (claimedMatch p lib) := by
  refine ⟨rfl, rfl, ?_, match_false_eq_claimed p lib⟩
  intro hne
  match lib, hne with
  | e :: rest, _ => exact match_pose_normalize_raises p e rest

/-- Counterexample to claim C4 as stated: at a present pose and a
non-empty library the claim asserts the result is the short-listed best
candidate or absent, but the call (with the matcher's default
normalization) raises `TypeError` instead of returning any result. -/
theorem claim_C4_counterexample :
    match_pose (some poseU) [(("Uniform"), danceU)] true = .error .typeError := rfl

/-- Witness for claim C4 (amended) at the concrete uniform pose and
one-entry library: the normalizing call raises while the non-normalizing
path returns the claim-described selection. -/
theorem claim_C4_witness :
    match_pose (some poseU) [(("Uniform"), danceU)] true = .error .typeError ∧
    match_pose (some poseU) [(("Uniform"), danceU)] false
      = .ok (claimedMatch poseU [(("Uniform"), danceU)]) := by
  obtain ⟨h1, h2, h3, h4⟩ :=
    claim_C4_amended_selection poseU [(("Uniform"), danceU)]
  exact ⟨h3 (by simp), h4⟩

/-- Sum of an affine image of a list. -/
theorem sum_map_affine (a b : ℝ) (f : Keypoint → ℝ) (l : List Keypoint) :
    (l.map (fun kp => a * f kp + b)).sum = a * (l.map f).sum + l.length * b := by
  induction l with
  | nil => simp
  | cons kp rest ih =>
    simp only [List.map_cons, List.sum_cons, List.length_cons, ih]
    push_cast
    ring

/-- The normalization transform scales distances by its (non-negative)
scale factor. -/
theorem distance_normTransform (cx cy s : ℝ) (hs : 0 ≤ s) (a b : Keypoint) :
    (normTransform cx cy s a).distance_to (normTransform cx cy s b)
      = s * a.distance_to b := by
  unfold normTransform Keypoint.distance_to
  dsimp only
  rw [show ((a.x - cx) * s + cx - ((b.x - cx) * s + cx)) ^ 2
      + ((a.y - cy) * s + cy - ((b.y - cy) * s + cy)) ^ 2
      = s ^ 2 * ((a.x - b.x) ^ 2 + (a.y - b.y) ^ 2) from by ring]
  rw [Real.sqrt_mul (sq_nonneg s), Real.sqrt_sq hs]

/-- The normalization transform with scale factor 1 is the identity. -/
theorem normTransform_one (cx cy : ℝ) (kp : Keypoint) :
    normTransform cx cy 1 kp = kp := by
  cases kp
  unfold normTransform
  simp only [Keypoint.mk.injEq]
  exact ⟨by ring, by ring, trivial, trivial⟩

/-- The transform preserves confidences, so visibility filtering
commutes with it. -/
theorem visible_map_normTransform (p : Pose) (cx cy s : ℝ) :
    visibleKeypoints ⟨p.keypoints.map (normTransform cx cy s), p.confidence,
      p.person_id, p.timestamp⟩
      = (visibleKeypoints p).map (normTransform cx cy s) := by
  unfold visibleKeypoints
  dsimp only
  rw [List.filter_map]
  rfl

/-- The mean is a fixed point of the affine remap around the mean. -/
theorem affine_mean (S : ℝ) (n : ℕ) (s : ℝ) (hSn : n = 0 → S = 0) :
    (s * S + (n : ℝ) * (S / (n : ℝ) - s * (S / (n : ℝ)))) / (n : ℝ)
      = S / (n : ℝ) := by
  by_cases hn : (n : ℝ) = 0
  · have hS : S = 0 := hSn (by exact_mod_cast hn)
    simp [hS, hn]
  · field_simp

/-- Normalizing around the visible-joint centroid does not move the x
centroid. -/
theorem centerX_normTransform (p : Pose) (cx cy s : ℝ) (hcx : cx = centerX p) :
    centerX ⟨p.keypoints.map (normTransform cx cy s),
      p.confidence, p.person_id, p.timestamp⟩ = cx := by
  unfold centerX at hcx ⊢
  rw [visible_map_normTransform, List.length_map, List.map_map]
  rw [show (Keypoint.x ∘ normTransform cx cy s)
      = fun kp => s * kp.x + (cx - s * cx) from by
    funext kp
    simp only [Function.comp_apply, normTransform]
    ring]
  rw [sum_map_affine, hcx]
  refine affine_mean _ _ s fun h => ?_
  rw [List.length_eq_zero.mp h]
  rfl

/-- Normalizing around the visible-joint centroid does not move the y
centroid. -/
theorem centerY_normTransform (p : Pose) (cx cy s : ℝ) (hcy : cy = centerY p) :
    centerY ⟨p.keypoints.map (normTransform cx cy s),
      p.confidence, p.person_id, p.timestamp⟩ = cy := by
  unfold centerY at hcy ⊢
  rw [visible_map_normTransform, List.length_map, List.map_map]
  rw [show (Keypoint.y ∘ normTransform cx cy s)
      = fun kp => s * kp.y + (cy - s * cy) from by
    funext kp
    simp only [Function.comp_apply, normTransform]
    ring]
  rw [sum_map_affine, hcy]
  refine affine_mean _ _ s fun h => ?_
  rw [List.length_eq_zero.mp h]
  rfl

/-- A successfully normalized pose is a fixed point of normalization
with the same reference pair: the reference distance is already 100 (so
the scale factor is 1) and the visible centroid is unchanged. -/
theorem normalize_ok_fixed (p q : Pose) (refs : List KRef)
    (h : p.normalize_scale refs = .ok q) : q.normalize_scale refs = .ok q := by
  match refs with
  | [] =>
    injection h with h2
    subst h2
    rfl
  | [r1] =>
    injection h with h2
    subst h2
    rfl
  | r1 :: r2 :: rest =>
    match r1 with
    | .name s1 =>
      exact absurd h (by simp [Pose.normalize_scale, Pose.get_keypoint])
    | .idx i1 =>
      match r2 with
      | .name s2 =>
        exact absurd h (by simp [Pose.normalize_scale, Pose.get_keypoint])
      | .idx i2 =>
        have h0 := h
        rw [Pose.normalize_scale] at h
        dsimp only [Pose.get_keypoint] at h
        by_cases hi1 : i1 < 0
        · rw [if_pos hi1] at h
          dsimp only at h
          injection h with h2
          subst h2
          exact h0
        · rw [if_neg hi1] at h
          cases hg1 : p.keypoints.get? i1.toNat with
          | none =>
            rw [hg1] at h
            dsimp only at h
            injection h with h2
            subst h2
            exact h0
          | some kp1 =>
            rw [hg1] at h
            by_cases hi2 : i2 < 0
            · rw [if_pos hi2] at h
              dsimp only at h
              injection h with h2
              subst h2
              exact h0
            · rw [if_neg hi2] at h
              cases hg2 : p.keypoints.get? i2.toNat with
              | none =>
                rw [hg2] at h
                dsimp only at h
                injection h with h2
                subst h2
                exact h0
              | some kp2 =>
                rw [hg2] at h
                dsimp only at h
                by_cases hconf : kp1.confidence < 0.5 ∨ kp2.confidence < 0.5
                · rw [if_pos hconf] at h
                  injection h with h2
                  subst h2
                  exact h0
                · rw [if_neg hconf] at h
                  by_cases hdist : kp1.distance_to kp2 = 0
                  · rw [if_pos hdist] at h
                    injection h with h2
                    subst h2
                    exact h0
                  · rw [if_neg hdist] at h
                    injection h with h2
                    subst h2
                    have hd0 : (0 : ℝ) ≤ kp1.distance_to kp2 :=
                      Real.sqrt_nonneg _
                    have hdpos : 0 < kp1.distance_to kp2 :=
                      lt_of_le_of_ne hd0 (Ne.symm hdist)
                    have hs0 : (0 : ℝ) ≤ 100 / kp1.distance_to kp2 := by
                      positivity
                    have hsd : 100 / kp1.distance_to kp2 * kp1.distance_to kp2
                        = (100 : ℝ) := div_mul_cancel₀ _ hdist
                    rw [Pose.normalize_scale]
                    dsimp only [Pose.get_keypoint]
                    rw [if_neg hi1, if_neg hi2]
                    simp only [List.get?_map, hg1, hg2, Option.map_some']
                    rw [if_neg (show ¬((normTransform (centerX p) (centerY p)
                        (100 / kp1.distance_to kp2) kp1).confidence < 0.5 ∨
                        (normTransform (centerX p) (centerY p)
                        (100 / kp1.distance_to kp2) kp2).confidence < 0.5)
                      from hconf)]
                    rw [distance_normTransform (centerX p) (centerY p)
                      (100 / kp1.distance_to kp2) hs0 kp1 kp2]
                    rw [hsd]
                    rw [if_neg (by norm_num : ¬(100 : ℝ) = 0)]
                    rw [show (100 : ℝ) / 100 = 1 from by norm_num]
                    rw [centerX_normTransform p (centerX p) (centerY p)
                      (100 / kp1.distance_to kp2) rfl]
                    rw [centerY_normTransform p (centerX p) (centerY p)
                      (100 / kp1.distance_to kp2) rfl]
                    rw [show (p.keypoints.map (normTransform (centerX p)
                        (centerY p) (100 / kp1.distance_to kp2))).map
                        (normTransform (centerX p) (centerY p) 1)
                        = p.keypoints.map (normTransform (centerX p)
                        (centerY p) (100 / kp1.distance_to kp2)) from by
                      rw [List.map_congr_left
                        (fun kp _ => normTransform_one (centerX p) (centerY p) kp),
                        List.map_id']]

/-- Claim C5: normalizing twice with the same reference pair equals
normalizing once, exactly, in the real-number model.  In monadic form:
binding a second normalization after the first changes nothing — on the
degenerate paths the pose is returned unchanged both times, on the
raising path the same error propagates, and on the success path the
once-normalized pose is already at the canonical 100-unit scale with the
same visible centroid, so the second application is the identity. -/
theorem claim_C5_normalize_idempotent (p : Pose) (refs : List KRef) :
    (p.normalize_scale refs).bind (fun q => q.normalize_scale refs)
      = p.normalize_scale refs := by
  cases hq : p.normalize_scale refs with
  | error e => rfl
  | ok q => exact normalize_ok_fixed p q refs hq

/-- Setting the target touches only the target field and the index. -/
theorem setTarget_preserves (e : GameEngine) :
    (set_current_target_pose e).dance_poses = e.dance_poses ∧
    (set_current_target_pose e).game_state.score = e.game_state.score ∧
    (set_current_target_pose e).game_state.combo_count = e.game_state.combo_count ∧
    (set_current_target_pose e).pose_start_time = e.pose_start_time ∧
    (set_current_target_pose e).game_state.is_playing = e.game_state.is_playing := by
  generalize hm : e.target_pose_sequence.length - e.current_pose_index = n
  induction n generalizing e with
  | zero =>
    have hc : ¬(e.current_pose_index < e.target_pose_sequence.length ∧
        e.target_pose_sequence ≠ []) := by
      rintro ⟨h1, _⟩
      omega
    rw [set_current_target_pose, dif_neg hc]
    exact ⟨rfl, rfl, rfl, rfl, rfl⟩
  | succ k ih =>
    have hlt : e.current_pose_index < e.target_pose_sequence.length := by omega
    have hne : e.target_pose_sequence ≠ [] := by
      intro h
      rw [h] at hlt
      simp at hlt
    rw [set_current_target_pose, dif_pos ⟨hlt, hne⟩]
    dsimp only
    split
    · exact ⟨rfl, rfl, rfl, rfl, rfl⟩
    · by_cases h2 : e.current_pose_index + 1 < e.target_pose_sequence.length
      · rw [if_pos h2]
        exact ih { e with current_pose_index := e.current_pose_index + 1 }
          (show e.target_pose_sequence.length - (e.current_pose_index + 1) = k
            from by omega)
      · rw [if_neg h2]
        exact ⟨rfl, rfl, rfl, rfl, rfl⟩

/-- Sequence regeneration never touches the score, combo or hold timer
(it either stops the session, raises before mutating, or only rewrites
the sequence and target). -/
theorem genNew_preserves (e : GameEngine) (fresh : List String) :
    (generate_new_sequence e fresh).1.game_state.score = e.game_state.score ∧
    (generate_new_sequence e fresh).1.game_state.combo_count
        = e.game_state.combo_count ∧
    (generate_new_sequence e fresh).1.pose_start_time = e.pose_start_time := by
  unfold generate_new_sequence
  split
  · exact ⟨rfl, rfl, rfl⟩
  · split
    · exact ⟨rfl, rfl, rfl⟩
    · obtain ⟨p1, p2, p3, p4, p5⟩ := setTarget_preserves
        { e with target_pose_sequence := fresh, current_pose_index := 0 }
      exact ⟨p2.trans rfl, p3.trans rfl, p4.trans rfl⟩

/-- The effects of `_complete_pose`: exact score award, combo increment,
cleared hold timer; and when the advanced index is in range with its
name in the library, the index is exactly `index + 1` with that target
set and no exception. -/
theorem complete_pose_effects (e : GameEngine) (m : PoseMatch) (fresh : List String)
    (nm : String) (d : DancePose) :
    (complete_pose e m fresh).1.game_state.score
        = e.game_state.score
          + (if m.is_perfect_match = true then PERFECT_MATCH_BONUS
             else GOOD_MATCH_BONUS)
            * (1.0 + (e.game_state.combo_count : ℝ) * 0.1) * m.similarity ∧
    (complete_pose e m fresh).1.game_state.combo_count
        = e.game_state.combo_count + 1 ∧
    (complete_pose e m fresh).1.pose_start_time = none ∧
    (e.current_pose_index + 1 < e.target_pose_sequence.length →
      e.target_pose_sequence.get? (e.current_pose_index + 1) = some nm →
      libLookup e.dance_poses nm = some d →
      (complete_pose e m fresh).1.current_pose_index = e.current_pose_index + 1 ∧
      (complete_pose e m fresh).1.game_state.target_pose = some d ∧
      (complete_pose e m fresh).2 = none) := by
  unfold complete_pose
  dsimp only
  set base : ℝ := if m.is_perfect_match = true then PERFECT_MATCH_BONUS
    else GOOD_MATCH_BONUS with hbase
  set e1 : GameEngine := { e with
    game_state := { e.game_state with
      score := e.game_state.score
        + base * (1.0 + (e.game_state.combo_count : ℝ) * 0.1) * m.similarity
      combo_count := e.game_state.combo_count + 1 }
    current_pose_index := e.current_pose_index + 1
    pose_start_time := none } with he1
  have he1idx : e1.current_pose_index = e.current_pose_index + 1 := by rw [he1]
  have he1seq : e1.target_pose_sequence = e.target_pose_sequence := by rw [he1]
  by_cases hex : e1.current_pose_index ≥ e1.target_pose_sequence.length
  · rw [if_pos hex]
    obtain ⟨g1, g2, g3⟩ := genNew_preserves e1 fresh
    refine ⟨g1.trans rfl, g2.trans rfl, g3.trans rfl,
      fun hlt => absurd hlt ?_⟩
    rw [he1idx, he1seq] at hex
    omega
  · rw [if_neg hex]
    obtain ⟨p1, p2, p3, p4, p5⟩ := setTarget_preserves e1
    rw [he1idx, he1seq] at hex
    refine ⟨p2.trans rfl, p3.trans rfl, p4.trans rfl,
      fun hlt hnm hd => ?_⟩
    have hcond : e1.current_pose_index < e1.target_pose_sequence.length ∧
        e1.target_pose_sequence ≠ [] := by
      rw [he1idx, he1seq]
      refine ⟨hlt, fun hnil => ?_⟩
      rw [hnil] at hlt
      simp at hlt
    have hget2 : e1.target_pose_sequence.get? e1.current_pose_index = some nm := by
      rw [he1seq, he1idx]
      exact hnm
    have hget : e1.target_pose_sequence.get ⟨e1.current_pose_index, hcond.1⟩ = nm := by
      have := List.get?_eq_get hcond.1
      rw [hget2] at this
      exact (Option.some.injEq _ _).mp this.symm
    rw [set_current_target_pose, dif_pos hcond]
    dsimp only
    rw [hget, show e1.dance_poses = e.dance_poses from rfl, hd]
    exact ⟨rfl, rfl, rfl⟩

/-- A good match reduces `_handle_pose_match` to the hold-duration test:
completion when the threshold is reached, otherwise only the timer
(re)start. -/
theorem handle_good_reduce (e : GameEngine) (m : PoseMatch) (t : ℝ)
    (fresh : List String) (hgood : m.is_good_match = true) :
    handle_pose_match e m t fresh
      = if t - e.pose_start_time.getD t ≥ e.pose_hold_time
        then complete_pose
          { e with pose_start_time := some (e.pose_start_time.getD t) } m fresh
        else
          ({ e with pose_start_time := some (e.pose_start_time.getD t) }, none) := by
  unfold handle_pose_match
  rw [if_pos hgood]

/-- Claim C6 (amended): with a good relevant match held to the threshold
the pose is completed exactly at that instant and not before — below the
threshold nothing changes except the running timer; at or above it the
score increases by exactly base × (1 + combo × 0.1) × similarity (base
10 for a perfect match, else 5), the combo increments and the timer
clears; and the sequence position advances past the completed pose:
when the entry at index + 1 is in the library the index becomes exactly
index + 1 with that target set (skipping, exhaustion-regeneration and
auto-stop can move the index further or reset it). -/
theorem claim_C6_amended_completion (e : GameEngine) (m : PoseMatch) (t : ℝ)
    (fresh : List String) (nm : String) (d : DancePose)
    (hgood : m.is_good_match = true) :
    (t - e.pose_start_time.getD t < e.pose_hold_time →
      handle_pose_match e m t fresh
        = ({ e with pose_start_time := some (e.pose_start_time.getD t) }, none)) ∧
    (t - e.pose_start_time.getD t ≥ e.pose_hold_time →
      (handle_pose_match e m t fresh).1.game_state.score
          = e.game_state.score
            + (if m.is_perfect_match = true then PERFECT_MATCH_BONUS
               else GOOD_MATCH_BONUS)
              * (1.0 + (e.game_state.combo_count : ℝ) * 0.1) * m.similarity ∧
      (handle_pose_match e m t fresh).1.game_state.combo_count
          = e.game_state.combo_count + 1 ∧
      (handle_pose_match e m t fresh).1.pose_start_time = none) ∧
    (t - e.pose_start_time.getD t ≥ e.pose_hold_time →
      e.current_pose_index + 1 < e.target_pose_sequence.length →
      e.target_pose_sequence.get? (e.current_pose_index + 1) = some nm →
      libLookup e.dance_poses nm = some d →
      (handle_pose_match e m t fresh).1.current_pose_index
          = e.current_pose_index + 1 ∧
      (handle_pose_match e m t fresh).1.game_state.target_pose = some d ∧
      (handle_pose_match e m t fresh).2 = none) := by
  rw [handle_good_reduce e m t fresh hgood]
  refine ⟨fun hlt => ?_, fun hge => ?_, fun hge h1 h2 h3 => ?_⟩
  · rw [if_neg (not_le.mpr hlt)]
  · rw [if_pos hge]
    obtain ⟨c1, c2, c3, c4⟩ := complete_pose_effects
      { e with pose_start_time := some (e.pose_start_time.getD t) } m fresh nm d
    exact ⟨c1, c2, c3⟩
  · rw [if_pos hge]
    obtain ⟨c1, c2, c3, c4⟩ := complete_pose_effects
      { e with pose_start_time := some (e.pose_start_time.getD t) } m fresh nm d
    exact c4 h1 h2 h3

/-- Counterexample to claim C6 as stated: completing pose A from index 0
while the next sequence entry (B) is missing from the library leaves the
sequence index at 2, not 1 — the index does not advance by exactly 1. -/
theorem claim_C6_counterexample :
    engine6.current_pose_index = 0 ∧
    matchGood.is_good_match = true ∧
    (handle_pose_match engine6 matchGood 2 []).1.current_pose_index = 2 := by
  refine ⟨rfl, rfl, ?_⟩
  rw [handle_good_reduce engine6 matchGood 2 [] rfl]
  rw [if_pos (show (2 : ℝ) - engine6.pose_start_time.getD 2
      ≥ engine6.pose_hold_time from by norm_num [engine6, mkEngine])]
  unfold complete_pose
  dsimp only
  rw [if_neg (show
      ¬({ engine6 with pose_start_time := some (engine6.pose_start_time.getD 2) }
          : GameEngine).current_pose_index + 1
        ≥ ({ engine6 with pose_start_time := some (engine6.pose_start_time.getD 2) }
          : GameEngine).target_pose_sequence.length
    from by simp [engine6, mkEngine])]
  simp +decide [set_current_target_pose, engine6, mkEngine, libLookup, List.find?]

/-- Witness for claim C6 (amended) at a concrete engine with combo 1 and
a clean next entry: exact score award, combo 2, cleared timer, index
advanced to 1 with the next target set, no exception. -/
theorem claim_C6_witness :
    (handle_pose_match engine6b matchGood 2 []).1.game_state.score
        = engine6b.game_state.score
          + (if matchGood.is_perfect_match = true then PERFECT_MATCH_BONUS
             else GOOD_MATCH_BONUS)
            * (1.0 + (engine6b.game_state.combo_count : ℝ) * 0.1)
            * matchGood.similarity ∧
    (handle_pose_match engine6b matchGood 2 []).1.game_state.combo_count
        = engine6b.game_state.combo_count + 1 ∧
    (handle_pose_match engine6b matchGood 2 []).1.pose_start_time = none ∧
    (handle_pose_match engine6b matchGood 2 []).1.current_pose_index
        = engine6b.current_pose_index + 1 ∧
    (handle_pose_match engine6b matchGood 2 []).1.game_state.target_pose
        = some danceC ∧
    (handle_pose_match engine6b matchGood 2 []).2 = none := by
  obtain ⟨h1, h2, h3⟩ :=
    claim_C6_amended_completion engine6b matchGood 2 [] ("C") danceC rfl
  have hge : (2 : ℝ) - engine6b.pose_start_time.getD 2
      ≥ engine6b.pose_hold_time := by
    norm_num [engine6b, mkEngine]
  obtain ⟨s1, s2, s3⟩ := h2 hge
  obtain ⟨i1, i2, i3⟩ := h3 hge (by simp [engine6b, mkEngine]) rfl rfl
  exact ⟨s1, s2, s3, i1, i2, i3⟩

end JustDance
